import Mathlib

/-!
Shallow embedding of the `S8A/voting-simulator` repository (the files
`district.py`, `candidate.py`, `party.py`, `voter_group.py`, `utils.py`,
`result.py`) and proofs about its election-counting engine.

Modelling conventions:
* Python dictionaries keyed by `Candidate`/`VoterGroup` are modelled as
  insertion-ordered association lists (`List (key × value)`); updating an
  existing key keeps its position, inserting a new key appends at the end,
  exactly like CPython dicts.
* Python runtime exceptions (`KeyError`, `TypeError` from unpacking a
  non-iterable, `ValueError` from `list.remove`/unpacking, `IndexError`,
  `NameError`) and the repository's own error classes are modelled with the
  `Except PyErr` monad.
* `random.shuffle`, `random.choice` and `random.triangular` are modelled by
  an explicit oracle `RndO`; `random.randint(5, 10)` draws that pick a ballot
  size are passed as an explicit argument of the simulation function.
* Python `round` (banker's rounding) is `pyRound`; machine floats are
  idealised as rationals.
-/

namespace VotingSim

/-- Error values a simulation can raise: the three error classes declared at
the bottom of `district.py` plus the Python runtime exceptions the counting
code can hit.  `fuelOut` is an embedding artifact: it stands for a `while`
loop that is still running after the supplied fuel, never for a value the
Python program returns. -/
inductive PyErr where
  | noSeatsToFill
  | notEnoughCandidates
  | invalidScoreRange
  | keyError
  | typeError
  | valueError
  | indexError
  | nameError
  | fuelOut
  deriving DecidableEq, Repr

/-- `party.py`: a party has a string identifier and a name. -/
structure Party where
  id : String
  name : String
  deriving DecidableEq, Repr

/-- `Party.__eq__`: equality compares only the `id` fields. -/
def pyPartyEq (a b : Party) : Bool := a.id == b.id

/-- `candidate.py`: a candidate is a party plus an integer identifier. -/
structure Candidate where
  party : Party
  id : Nat
  deriving DecidableEq, Repr

/-- `Candidate.__eq__`: equality compares the party (by `Party.__eq__`) and
the identifier. -/
def pyCandEq (a b : Candidate) : Bool := pyPartyEq a.party b.party && a.id == b.id

/-- `voter_group.py`: a voter group is an ordered list of parties (most
preferred first) with an optional name. -/
structure VoterGroup where
  preferences : List Party
  name : String
  deriving DecidableEq, Repr

/-- Pointwise list equality by a boolean comparison, as Python list `==`
does elementwise. -/
def listEqBy (eq : α → α → Bool) : List α → List α → Bool
  | [], [] => true
  | a :: as, b :: bs => eq a b && listEqBy eq as bs
  | _, _ => false

/-- `VoterGroup.__eq__`: equality compares the preference lists. -/
def pyVgEq (a b : VoterGroup) : Bool := listEqBy pyPartyEq a.preferences b.preferences

/-- Python `x in l` / `x not in l` membership test, which uses `__eq__`. -/
def listContains (eq : α → α → Bool) (l : List α) (x : α) : Bool := l.any (fun y => eq y x)

/-- Dictionary lookup `d.get(k)`: value of the first entry whose key equals
`k` under the supplied equality. -/
def dictGet? (eq : κ → κ → Bool) (d : List (κ × υ)) (k : κ) : Option υ :=
  (d.find? (fun p => eq p.1 k)).map (fun p => p.2)

/-- Dictionary assignment `d[k] = v`: overwrite the first entry with an equal
key (keeping the stored key object and its position, like CPython), or append
a fresh entry at the end. -/
def dictSet (eq : κ → κ → Bool) : List (κ × υ) → κ → υ → List (κ × υ)
  | [], k, v => [(k, v)]
  | p :: t, k, v => if eq p.1 k then (p.1, v) :: t else p :: dictSet eq t k v

/-- Dictionary in-place addition `d[k] += v`, raising `KeyError` when the key
is absent, as Python does. -/
def dictAdd [Add υ] (eq : κ → κ → Bool) : List (κ × υ) → κ → υ → Except PyErr (List (κ × υ))
  | [], _, _ => .error .keyError
  | p :: t, k, v => if eq p.1 k then .ok ((p.1, p.2 + v) :: t) else (dictAdd eq t k v).map (fun t2 => p :: t2)

/-- Dictionary comprehension `{k: v0 for k in ks}` (duplicate keys collapse
onto the first occurrence, as in Python). -/
def dictInit (eq : κ → κ → Bool) (v0 : υ) (ks : List κ) : List (κ × υ) :=
  ks.foldl (fun m k => dictSet eq m k v0) []

/-- Python `l[0]`, raising `IndexError` on an empty list. -/
def pyHead : List α → Except PyErr α
  | [] => .error .indexError
  | h :: _ => .ok h

/-- Python `l[-1]`, raising `IndexError` on an empty list. -/
def pyLast (l : List α) : Except PyErr α :=
  match l.getLast? with
  | none => .error .indexError
  | some x => .ok x

/-- Python `l[i]` for a non-negative index, raising `IndexError` when out of
range. -/
def pyIdx (l : List α) (i : Nat) : Except PyErr α :=
  match l.get? i with
  | none => .error .indexError
  | some x => .ok x

/-- Python `l.remove(x)`: drop the first element equal to `x`, raising
`ValueError` when there is none. -/
def pyRemove (eq : α → α → Bool) : List α → α → Except PyErr (List α)
  | [], _ => .error .valueError
  | h :: t, x => if eq h x then .ok t else (pyRemove eq t x).map (fun t2 => h :: t2)

/-- Models the statement `for k, v in d:` where `d` is a dict whose keys are
`Candidate` (or `VoterGroup`) objects.  Iterating a dict yields its keys, and
unpacking a non-iterable key raises `TypeError` at the first element; when
the dict is empty the loop body never runs and no error is raised. -/
def pyIterPairs (d : List (α × β)) : Except PyErr Unit :=
  match d with
  | [] => .ok ()
  | _ => .error .typeError

/-- Python `round`: round half to even (banker's rounding), as used by
`round(...)` calls in `district.py`. -/
def pyRound (q : ℚ) : ℤ :=
  let f := ⌊q⌋
  let r := q - f
  if r < 1/2 then f
  else if 1/2 < r then f + 1
  else if f % 2 = 0 then f else f + 1

/-- Oracle supplying the random draws consumed by ballot generation:
`random.shuffle` (modelled as a list transformation), `random.choice`
(modelled as an index picker) and `random.triangular`. -/
structure RndO where
  shuffle : List Candidate → List Candidate
  pick : List Candidate → Nat
  triangular : ℚ → ℚ → ℚ → ℚ

/-- `random.choice(l)`: pick an element of `l` (the oracle chooses which),
raising `IndexError` on an empty list as Python does. -/
def pyChoice (O : RndO) (l : List Candidate) : Except PyErr Candidate :=
  if h : l.length = 0 then .error .indexError
  else .ok (l.get ⟨O.pick l % l.length, Nat.mod_lt _ (Nat.pos_of_ne_zero h)⟩)

/-- Stable insertion into a list sorted by descending value: a later element
is placed after all already-present entries with the same value.  Together
with `sort_dict_desc` this reproduces the output of Python's stable
`sorted(d.items(), key=value, reverse=True)` from `utils.py`. -/
def sortInsertDesc [LinearOrder υ] (x : κ × υ) : List (κ × υ) → List (κ × υ)
  | [] => [x]
  | h :: t => if h.2 ≤ x.2 then x :: h :: t else h :: sortInsertDesc x t

/-- `utils.sort_dict_desc`: sort a dict's items by descending value; Python's
sort is stable, so entries with equal values keep their insertion order. -/
def sort_dict_desc [LinearOrder υ] (l : List (κ × υ)) : List (κ × υ) :=
  l.foldr sortInsertDesc []

/-- `result.py`: the immutable record a simulation returns, parameterised by
the number type of the counts (integers for vote counts, rationals for
scores). -/
structure ElectionResult (V : Type) where
  voting_system : String
  counts : List (Candidate × V)
  winners : List Candidate
  count_type : String := "Votes"
  percent_column : Bool := true
  details : List String := []

/-- `utils.PARTY_DICT`: the example party identifiers and names. -/
def PARTY_DICT : List (String × String) :=
  [("I", "Independent"), ("M", "Moderate"), ("R", "Republican"),
   ("D", "Democrat"), ("L", "Libertarian"), ("G", "Green")]

/-- `utils.parties_from_dict`. -/
def parties_from_dict (d : List (String × String)) : List Party :=
  d.map (fun p => { id := p.1, name := p.2 })

/-- `utils.PARTIES`. -/
def PARTIES : List Party := parties_from_dict PARTY_DICT

/-- `utils.generate_voter_groups`: one unnamed voter group per permutation of
the example parties. -/
def generate_voter_groups : List VoterGroup :=
  PARTIES.permutations.map (fun seq => { preferences := seq, name := "" })

/-- `district.py`: the `District` object.  Its fields are exactly the
attributes `__init__` assigns; `total_voters` is a count of voters. -/
structure District where
  name : String
  total_voters : Nat
  voter_groups : List VoterGroup
  voter_map : List (VoterGroup × Int)

/-- Inner loop of `District.generate_voter_map` (lines 65-75): walk the voter
groups with an index, giving the last group all remaining voters and every
other group `random.randint(0, max(max_voters, remaining))` voters (the draw
is supplied by the stream `rnd`, reduced into the requested range). -/
def gvmLoop (rnd : Nat → Nat) (max_voters : Int) :
    Nat → Int → List (VoterGroup × Int) → List VoterGroup → List (VoterGroup × Int)
  | _, _remaining, m, [] => m
  | _, remaining, m, [vg] => dictSet pyVgEq m vg remaining
  | i, remaining, m, vg :: rest =>
      let bound : Int := max max_voters remaining
      let val : Int := (rnd i : Int) % (bound + 1)
      gvmLoop rnd max_voters (i + 1) (remaining - val) (dictSet pyVgEq m vg val) rest

/-- `District.generate_voter_map` (lines 51-76): builds and RETURNS a fresh
map from voter groups to voter counts; it never assigns the map to the
district's `voter_map` attribute.  `max_voters` is `round(0.4 * total)`
(the float literal `0.4` is idealised as the rational `2/5`). -/
def generate_voter_map (d : District) (rnd : Nat → Nat) : List (VoterGroup × Int) :=
  let voter_groups := if d.voter_groups.isEmpty then generate_voter_groups else d.voter_groups
  let voter_map := dictInit pyVgEq (0 : Int) voter_groups
  let max_voters : Int := pyRound ((2 / 5 : ℚ) * d.total_voters)
  gvmLoop rnd max_voters 0 (d.total_voters : Int) voter_map voter_groups

/-- `District.__init__` (lines 17-30): store the arguments, set `voter_map`
to the empty dict, then call `generate_voter_map` — whose returned map is
discarded, since line 30 is a bare call with no assignment. -/
def District.init (name : String) (total_voters : Nat) (voter_groups : List VoterGroup)
    (rnd : Nat → Nat) : District :=
  let d : District := { name := name, total_voters := total_voters,
                        voter_groups := voter_groups, voter_map := [] }
  let _ := generate_voter_map d rnd
  d

/-- Party-by-party filling loop of `District.generate_block_ballots`
(lines 101-110): stop once the ballot already holds `n` candidates, else
extend it by `choices[0:n]` — the first `n` candidates of the current party,
NOT just the remaining capacity. -/
def blockFill (n : Nat) (candidates : List Candidate) (randomize : Bool) (O : RndO) :
    List Party → List Candidate → List Candidate
  | [], ballot => ballot
  | party :: rest, ballot =>
      if n ≤ ballot.length then ballot
      else
        let choices0 := candidates.filter (fun c => pyPartyEq c.party party)
        let choices := if randomize then O.shuffle choices0 else choices0
        blockFill n candidates randomize O rest (ballot ++ choices.take n)

/-- `District.generate_block_ballots` (lines 78-113), with the method's
`self.voter_map` passed explicitly as `vm`: one `(ballot, voters)` pair per
voter-map entry. -/
def generate_block_ballots (vm : List (VoterGroup × Int)) (n : Nat)
    (candidates : List Candidate) (randomize : Bool) (O : RndO) :
    List (List Candidate × Int) :=
  vm.map (fun gv => (blockFill n candidates randomize O gv.1.preferences [], gv.2))

/-- One party's contribution to rank `k` of a ranked ballot (lines 146-152):
the party's candidates not yet on the ballot, chosen by `random.choice` when
randomizing and by `party_list[0]` otherwise (each raising `IndexError` on an
empty list). -/
def rankedPick (candidates : List Candidate) (randomize : Bool) (O : RndO)
    (ballot : List Candidate) (p : Party) : Except PyErr Candidate :=
  let party_list := candidates.filter
    (fun c => pyPartyEq c.party p && !(listContains pyCandEq ballot c))
  if randomize then pyChoice O party_list else pyHead party_list

/-- Rank-filling loop of `District.generate_ranked_ballots` (lines 140-155):
for rank `k` draw one candidate from each of the first `k+1` preferred
parties, then keep `random.choice(choices)` when randomizing and
`choices[-1]` otherwise. -/
def rankedLoop (candidates : List Candidate) (randomize : Bool) (O : RndO)
    (prefs : List Party) : List Nat → List Candidate → Except PyErr (List Candidate)
  | [], ballot => .ok ballot
  | k :: ks, ballot => do
      let parties := prefs.take (k + 1)
      let choices ← parties.mapM (rankedPick candidates randomize O ballot)
      let candidate ← if randomize then pyChoice O choices else pyLast choices
      rankedLoop candidates randomize O prefs ks (ballot ++ [candidate])

/-- `District.generate_ranked_ballots` (lines 115-158), with `self.voter_map`
passed explicitly as `vm`; the rank loop runs over `range(n)`. -/
def generate_ranked_ballots (vm : List (VoterGroup × Int)) (n : Nat)
    (candidates : List Candidate) (randomize : Bool) (O : RndO) :
    Except PyErr (List (List Candidate × Int)) :=
  vm.mapM (fun gv => do
    let ballot ← rankedLoop candidates randomize O gv.1.preferences (List.range n) []
    pure (ballot, gv.2))

/-- The list comprehension `[c for c in candidates if c.party == prefs[i]]`:
when `candidates` is empty the comprehension never evaluates `prefs[i]` and
yields `[]`; otherwise an empty `prefs` raises `IndexError`. `getP` supplies
`prefs[0]` or `prefs[-1]`. -/
def scoreFilter (candidates : List Candidate) (getP : Except PyErr Party)
    (keep : Candidate → Bool) : Except PyErr (List Candidate) :=
  if candidates.isEmpty then .ok []
  else do
    let p ← getP
    .ok (candidates.filter (fun c => pyPartyEq c.party p && keep c))

/-- Score-assignment loop of `District.generate_score_ballots`
(lines 195-237).  Rank 0 gives `max_score` to a candidate of the
most-preferred party; rank 1 gives `min_score` to `random.choice(lpp)` when
randomizing but — as written at line 208 — to `mpp[0]` otherwise (`mpp` here
is recomputed; it is the same pure list the `k = 0` branch computed, which
Python keeps in scope); later ranks score a candidate drawn from the first
`k-1` preferred parties with a triangular draw. -/
def scoreLoop (candidates : List Candidate) (min_score max_score : ℚ)
    (randomize : Bool) (O : RndO) (prefs : List Party) :
    List Nat → List (Candidate × ℚ) → Except PyErr (List (Candidate × ℚ))
  | [], scores => .ok scores
  | k :: ks, scores =>
      if k = 0 then do
        let mpp ← scoreFilter candidates (pyHead prefs) (fun _ => true)
        let highest_scored ← if randomize then pyChoice O mpp else pyHead mpp
        scoreLoop candidates min_score max_score randomize O prefs ks
          (dictSet pyCandEq scores highest_scored max_score)
      else if k = 1 then do
        let mpp ← scoreFilter candidates (pyHead prefs) (fun _ => true)
        let lpp ← scoreFilter candidates (pyLast prefs)
          (fun c => !(listContains pyCandEq (scores.map Prod.fst) c))
        let lowest_scored ← if randomize then pyChoice O lpp else pyHead mpp
        scoreLoop candidates min_score max_score randomize O prefs ks
          (dictSet pyCandEq scores lowest_scored min_score)
      else do
        let parties := prefs.take (k - 1)
        let choices ← parties.mapM (fun p => do
          let party_list := candidates.filter
            (fun c => pyPartyEq c.party p &&
              !(listContains pyCandEq (scores.map Prod.fst) c))
          if randomize then pyChoice O party_list else pyHead party_list)
        let candidate ← if randomize then pyChoice O choices else pyLast choices
        let party_index ←
          match prefs.findIdx? (fun p => pyPartyEq p candidate.party) with
          | none => Except.error PyErr.valueError
          | some i => Except.ok i
        let pref_factor : ℚ := 1 - (party_index : ℚ) / (prefs.length : ℚ)
        let mode : ℚ := (pyRound (pref_factor * (max_score - 1)) : ℚ)
        let score := O.triangular min_score (max_score - 1) mode
        scoreLoop candidates min_score max_score randomize O prefs ks
          (dictSet pyCandEq scores candidate score)

/-- `District.generate_score_ballots` (lines 160-240), with `self.voter_map`
passed explicitly as `vm`; the rank loop runs over `range(n)`. -/
def generate_score_ballots (vm : List (VoterGroup × Int)) (n : Nat)
    (candidates : List Candidate) (min_score max_score : ℚ) (randomize : Bool)
    (O : RndO) : Except PyErr (List (List (Candidate × ℚ) × Int)) :=
  vm.mapM (fun gv => do
    let scores ← scoreLoop candidates min_score max_score randomize O
      gv.1.preferences (List.range n) []
    pure (scores, gv.2))

/-- Vote-counting loop of `simulate_ntv` (lines 274-277): add each ballot's
weight to the count of every candidate on it (`counts[candidate] += votes`
raises `KeyError` when the candidate is not a key). -/
def ntvTally (candidates : List Candidate) (ballots : List (List Candidate × Int)) :
    Except PyErr (List (Candidate × Int)) :=
  ballots.foldlM
    (fun counts bw => bw.1.foldlM (fun cs c => dictAdd pyCandEq cs c bw.2) counts)
    (dictInit pyCandEq (0 : Int) candidates)

/-- `District.simulate_ntv` (lines 242-289), with `self.voter_map` passed
explicitly as `vm`: validate, generate block ballots, tally, and take the
first `seats` entries of the descending-sorted counts as winners. -/
def simulate_ntv (vm : List (VoterGroup × Int)) (n seats : Nat)
    (candidates : List Candidate) (randomize : Bool) (O : RndO) :
    Except PyErr (ElectionResult Int) :=
  if seats < 1 then .error .noSeatsToFill
  else if candidates.length ≤ 1 ∨ candidates.length < seats then .error .notEnoughCandidates
  else do
    let ballots := generate_block_ballots vm n candidates randomize O
    let counts ← ntvTally candidates ballots
    let winners := ((sort_dict_desc counts).take seats).map Prod.fst
    .ok { voting_system := "Non-transferable vote (NTV)", counts := counts,
          winners := winners,
          details := [toString n ++ " votes per ballot", toString seats ++ " seats",
                      toString candidates.length ++ " candidates"] ++
                     (if randomize then ["Randomized ballot generation"] else []) }

/-- `District.simulate_trs` (lines 415-480).  After tallying the first round
it runs `for candidate, votes in counts:` (line 457) — iterating the dict
yields bare `Candidate` keys, so unpacking raises `TypeError` whenever the
dict is nonempty; when it is empty the loop never runs, `majority_reached`
stays `False` (note `total_votes` is initialised to 0 at line 451 and never
incremented) and the code proceeds to the second round. -/
def simulate_trs (vm : List (VoterGroup × Int)) (candidates : List Candidate)
    (randomize : Bool) (O : RndO) : Except PyErr (ElectionResult Int) :=
  if candidates.length ≤ 1 then .error .notEnoughCandidates
  else do
    let ballots := generate_block_ballots vm 1 candidates randomize O
    let _total_votes : Int := 0
    let counts ← ballots.foldlM (fun cs bw => do
        let candidate ← pyHead bw.1
        dictAdd pyCandEq cs candidate bw.2) (dictInit pyCandEq (0 : Int) candidates)
    let _ ← pyIterPairs counts
    let ab ←
      match (sort_dict_desc counts).take 2 with
      | [x, y] => Except.ok (x.1, y.1)
      | _ => Except.error PyErr.valueError
    let ballots2 := generate_block_ballots vm 1 [ab.1, ab.2] randomize O
    let counts2 ← ballots2.foldlM (fun cs bw => do
        let candidate ← pyHead bw.1
        dictAdd pyCandEq cs candidate bw.2)
      (dictSet pyCandEq (dictSet pyCandEq [] ab.1 0) ab.2 0)
    let winner ← pyHead (sort_dict_desc counts2)
    .ok { voting_system := "Two-round system (TRS)", counts := counts2,
          winners := [winner.1],
          details := [toString candidates.length ++ " initial candidates"] }

/-- The quota from `simulate_stv` line 551:
`m.floor(total_votes / (seats + 1)) + 1`, the floor of the exact quotient
(`Int.fdiv` is floor division). -/
def stvQuota (total : Int) (seats : Nat) : Int :=
  Int.fdiv total ((seats : Int) + 1) + 1

/-- Remove one candidate from every ranked ballot
(`for r, v in ballots: r.remove(candidate)`) — `list.remove` raises
`ValueError` on any ballot that does not contain the candidate. -/
def removeFromAll (ballots : List (List Candidate × Int)) (c : Candidate) :
    Except PyErr (List (List Candidate × Int)) :=
  ballots.mapM (fun rv => (pyRemove pyCandEq rv.1 c).map (fun r2 => (r2, rv.2)))

/-- The mutable locals of the STV `while` loop. `lastVar` models the Python
local `candidate`: the stale value left by the most recent
`for candidate, votes in ...` iteration, or `none` while it is still unbound
(reading it then raises `NameError`). -/
structure StvSt where
  winners : List Candidate
  counts : List (Candidate × Int)
  ballots : List (List Candidate × Int)
  lastVar : Option Candidate

/-- Surplus-transfer preparation of `simulate_stv` (lines 589-594): collect
`next_choices` from the ballots whose first entry equals the elected
candidate (reading `r[0]`/`r[1]` can raise `IndexError`). -/
def stvSurplusNC (ballots : List (List Candidate × Int)) (candidate : Candidate) :
    Except PyErr (List (Candidate × Int)) :=
  ballots.foldlM (fun nc rv => do
    let c0 ← pyHead rv.1
    if pyCandEq c0 candidate then do
      let c1 ← pyIdx rv.1 1
      pure (dictSet pyCandEq nc c1 ((dictGet? pyCandEq nc c1).getD 0 + rv.2))
    else pure nc) []

/-- One iteration of the quota check `for candidate, votes in remaining:`
(lines 574-600): when the candidate's count reaches the quota, elect them,
strip them from every ballot, deduct the surplus from their count and — when
surplus transfers are enabled and the surplus is positive — build
`next_choices` and run `for c, v in next_choices:`, whose key unpacking
raises `TypeError` on a nonempty dict. -/
def stvQuotaStep (quota : Int) (surplus_transfers : Bool) (st : Bool × StvSt)
    (cv : Candidate × Int) : Except PyErr (Bool × StvSt) := do
  let s0 := { st.2 with lastVar := some cv.1 }
  if quota ≤ cv.2 then do
    let s1 := { s0 with winners := s0.winners ++ [cv.1] }
    let ballots ← removeFromAll s1.ballots cv.1
    let counts ← dictAdd pyCandEq s1.counts cv.1 (-(cv.2 - quota))
    let s2 := { s1 with ballots := ballots, counts := counts }
    if surplus_transfers ∧ 0 < cv.2 - quota then do
      let nc ← stvSurplusNC s2.ballots cv.1
      let _ ← pyIterPairs nc
      pure (true, s2)
    else pure (true, s2)
  else pure (st.1, s0)

/-- Elimination bookkeeping of `simulate_stv` (lines 608-614): walk the
ballots once, collecting `next_choices` from ballots led by the eliminated
candidate and removing that candidate from every ballot. -/
def stvElimNC (ballots : List (List Candidate × Int)) (lfc : Candidate) :
    Except PyErr (List (Candidate × Int) × List (List Candidate × Int)) :=
  ballots.foldlM (fun acc rv => do
    let c0 ← pyHead rv.1
    let nc ←
      if pyCandEq c0 lfc then do
        let c1 ← pyIdx rv.1 1
        pure (dictSet pyCandEq acc.1 c1 ((dictGet? pyCandEq acc.1 c1).getD 0 + rv.2))
      else pure acc.1
    let r2 ← pyRemove pyCandEq rv.1 lfc
    pure (nc, acc.2 ++ [(r2, rv.2)])) (([], []) : List (Candidate × Int) × List (List Candidate × Int))

/-- Elimination branch of `simulate_stv` (lines 602-620): zero the weakest
remaining candidate's count, strip them from the ballots while collecting
`next_choices`, run the bugged `for c, v in next_choices:` unpacking, then
`for r, v in ballots: r.remove(candidate)` with the stale quota-loop variable
`candidate` (a `NameError` when it was never bound). -/
def stvElim (st : StvSt) (remaining : List (Candidate × Int)) : Except PyErr StvSt := do
  let lfcP ← pyLast remaining
  let counts := dictSet pyCandEq st.counts lfcP.1 0
  let ncBallots ← stvElimNC st.ballots lfcP.1
  let _ ← pyIterPairs ncBallots.1
  match st.lastVar with
  | none => Except.error PyErr.nameError
  | some cand => do
      let ballots2 ← removeFromAll ncBallots.2 cand
      pure { st with counts := counts, ballots := ballots2 }

/-- The `while len(winners) < seats:` loop of `simulate_stv` (lines 554-620),
bounded by explicit fuel: recompute the remaining candidates, apply the two
early exits, then the quota pass and/or the elimination step. -/
def stvLoop (seats : Nat) (droop_quota surplus_transfers : Bool) (quota : Int) :
    Nat → StvSt → Except PyErr (List Candidate × List (Candidate × Int))
  | 0, _ => .error .fuelOut
  | fuel + 1, st =>
      if seats ≤ st.winners.length then .ok (st.winners, st.counts)
      else do
        let remaining := (sort_dict_desc st.counts).filter
          (fun cv => !(listContains pyCandEq st.winners cv.1) && 0 < cv.2)
        if seats = 1 ∧ remaining.length = 2 then do
          let r0 ← pyHead remaining
          .ok (st.winners ++ [r0.1], st.counts)
        else if remaining.length = seats then
          .ok (st.winners ++ remaining.map (fun cv => cv.1), st.counts)
        else do
          let step ←
            if droop_quota then
              remaining.foldlM (stvQuotaStep quota surplus_transfers) (false, st)
            else pure (false, st)
          let st2 ← if step.1 then pure step.2 else stvElim step.2 remaining
          stvLoop seats droop_quota surplus_transfers quota fuel st2

/-- `District.simulate_stv` (lines 482-638), with `self.voter_map` passed
explicitly as `vm` and the `while` loop bounded by `fuel`.  The ballot size
is `min(max(round(1.5 * seats), 5), len(candidates))`. -/
def simulate_stv (vm : List (VoterGroup × Int)) (seats : Nat)
    (candidates : List Candidate) (droop_quota surplus_transfers randomize : Bool)
    (O : RndO) (fuel : Nat) : Except PyErr (ElectionResult Int) :=
  if seats < 1 then .error .noSeatsToFill
  else if candidates.length ≤ 1 ∨ candidates.length < seats then .error .notEnoughCandidates
  else do
    let n : Nat := min (max (pyRound ((3 / 2 : ℚ) * seats)).toNat 5) candidates.length
    let ballots ← generate_ranked_ballots vm n candidates randomize O
    let first ← ballots.foldlM (fun (acc : List (Candidate × Int) × Int) rv => do
        let c0 ← pyHead rv.1
        let cs ← dictAdd pyCandEq acc.1 c0 rv.2
        pure (cs, acc.2 + rv.2)) (dictInit pyCandEq (0 : Int) candidates, 0)
    let quota : Int := if droop_quota then stvQuota first.2 seats else 0
    let res ← stvLoop seats droop_quota surplus_transfers quota fuel
      { winners := [], counts := first.1, ballots := ballots, lastVar := none }
    .ok { voting_system := "Single transferable vote (STV)", counts := res.2,
          winners := res.1,
          details := ["(" ++ toString seats ++ " seats",
                      toString candidates.length ++ " candidates",
                      toString n ++ " ranks per ballot"] ++
                     (if randomize then ["Randomized ballot generation"] else []) ++
                     (if droop_quota then
                        [if surplus_transfers then "Using Droop quota with surplus transfers"
                         else "Using Droop quota without surplus transfers"]
                      else ["Elimination transfers only"]) }

/-- One pass of the Bucklin round loop (lines 864-872): every nonempty
ranking adds its weight to its current front choice and pops it. -/
def bucklinPass (counts : List (Candidate × Int)) (ballots : List (List Candidate × Int)) :
    Except PyErr (List (Candidate × Int) × List (List Candidate × Int)) :=
  ballots.foldlM (fun acc rv =>
    match rv.1 with
    | [] => pure (acc.1, acc.2 ++ [rv])
    | c :: rest => do
        let cs ← dictAdd pyCandEq acc.1 c rv.2
        pure (cs, acc.2 ++ [(rest, rv.2)])) ((counts, []))

/-- The `while True:` loop of `simulate_bucklin_voting` (lines 862-881),
bounded by fuel.  After each pass the majority check
`for candidate, votes in counts:` iterates the dict's keys: a nonempty dict
raises `TypeError` at the first key; an empty dict means no majority is found
and the loop repeats forever. -/
def bucklinLoop :
    Nat → List (Candidate × Int) × List (List Candidate × Int) →
    Except PyErr (List (Candidate × Int))
  | 0, _ => .error .fuelOut
  | fuel + 1, st => do
      let st2 ← bucklinPass st.1 st.2
      let _ ← pyIterPairs st2.1
      bucklinLoop fuel st2

/-- `District.simulate_bucklin_voting` (lines 827-891), with `self.voter_map`
passed as `vm` and the draw `random.randint(5, 10)` for the ballot size
passed as `nDraw`. -/
def simulate_bucklin_voting (vm : List (VoterGroup × Int))
    (candidates : List Candidate) (randomize : Bool) (O : RndO)
    (nDraw fuel : Nat) : Except PyErr (ElectionResult Int) :=
  if candidates.length ≤ 1 then .error .notEnoughCandidates
  else do
    let n := min nDraw candidates.length
    let ballots ← generate_ranked_ballots vm n candidates randomize O
    let _total_votes : Int := (ballots.map (fun rv => rv.2)).sum
    let counts ← bucklinLoop fuel (dictInit pyCandEq (0 : Int) candidates, ballots)
    let winner ← pyHead (sort_dict_desc counts)
    .ok { voting_system := "Bucklin voting", counts := counts,
          winners := [winner.1],
          details := [toString candidates.length ++ " candidates",
                      toString n ++ " ranks per ballot"] }

/-- Score tally of `simulate_star_bloc_voting` (lines 1053-1056):
`for candidate, score in ballot:` iterates each ballot dict's keys, so a
nonempty ballot raises `TypeError` and an empty one contributes nothing. -/
def starTally (candidates : List Candidate)
    (ballots : List (List (Candidate × ℚ) × Int)) :
    Except PyErr (List (Candidate × ℚ)) :=
  ballots.foldlM (fun sc bw => do
    let _ ← pyIterPairs bw.1
    pure sc) (dictInit pyCandEq (0 : ℚ) candidates)

/-- Seat-filling loop of `simulate_star_bloc_voting` (lines 1059-1085),
bounded by fuel.  Unpacking `a, b = [...]` raises `ValueError` unless exactly
two candidates remain in the slice; inside the runoff,
`max([s for c, s in ballot if c == a])` raises `TypeError` on a nonempty
ballot dict (keys are not pairs) and `ValueError` (`max` of an empty
sequence) on an empty one. -/
def starLoop (seats : Nat) (ballots : List (List (Candidate × ℚ) × Int))
    (scores : List (Candidate × ℚ)) :
    Nat → List Candidate → Except PyErr (List Candidate)
  | 0, _ => .error .fuelOut
  | fuel + 1, winners =>
      if seats ≤ winners.length then .ok winners
      else do
        let remaining := (sort_dict_desc scores).filter
          (fun cv => !(listContains pyCandEq winners cv.1) && 0 < cv.2)
        if remaining.length = seats then .ok (winners ++ remaining.map (fun cv => cv.1))
        else do
          let ab ←
            match remaining.take 2 with
            | [x, y] => Except.ok (x.1, y.1)
            | _ => Except.error PyErr.valueError
          let runoff ← ballots.foldlM
            (fun (_rn : List (Candidate × ℚ)) bw => do
              let _ ← pyIterPairs bw.1
              (Except.error PyErr.valueError : Except PyErr (List (Candidate × ℚ))))
            (dictSet pyCandEq (dictSet pyCandEq [] ab.1 (0 : ℚ)) ab.2 0)
          let winner ← pyHead (sort_dict_desc runoff)
          starLoop seats ballots scores fuel (winners ++ [winner.1])

/-- `District.simulate_star_bloc_voting` (lines 1016-1094), with
`self.voter_map` passed as `vm` and the `random.randint(5, 10)` ballot-size
draw passed as `nDraw`. -/
def simulate_star_bloc_voting (vm : List (VoterGroup × Int)) (seats : Nat)
    (candidates : List Candidate) (randomize : Bool) (O : RndO)
    (nDraw fuel : Nat) : Except PyErr (ElectionResult ℚ) :=
  if seats < 1 then .error .noSeatsToFill
  else if candidates.length ≤ 1 ∨ candidates.length < seats then .error .notEnoughCandidates
  else do
    let n := min nDraw candidates.length
    let ballots ← generate_score_ballots vm n candidates 0 5 randomize O
    let scores ← starTally candidates ballots
    let winners ← starLoop seats ballots scores fuel []
    .ok { voting_system := "Score-then-automatic-runoff (STAR) bloc voting",
          counts := scores, winners := winners, count_type := "Score",
          details := [toString seats ++ " seats",
                      toString candidates.length ++ " candidates",
                      toString n ++ " ranks per ballot", "Randomized selection"] }

/-- Per-rank point factor of `simulate_borda_count` (lines 797-808), before
multiplication by the ballot weight and rounding: the Dowdall system gives
`1/(i+1)`, the zero-index variant `n-i-1`, and the standard variant `n-i`,
for rank index `i` on a ballot of `n` ranks. -/
def bordaRankScore (variant : String) (n i : Nat) : ℚ :=
  if variant == "dowdall" then 1 / ((i : ℚ) + 1)
  else if variant == "zero-index" then (n : ℚ) - (i : ℚ) - 1
  else (n : ℚ) - (i : ℚ)

/-! Specification-side definitions (phrased from the spec's words, for
comparison against the code's definitions) and concrete fixtures. -/

/-- Comparison used by the spec's description of NTV winners: row `x` comes
strictly before row `h` when it has a larger count, or an equal count and a
smaller input-order index. -/
def lexBefore (x h : Nat × (Candidate × Int)) : Bool :=
  decide (h.2.2 < x.2.2) || (decide (h.2.2 = x.2.2) && decide (x.1 < h.1))

/-- Insertion into a list sorted by `lexBefore` (count descending, input
index ascending — a strict total order on rows with distinct indices). -/
def lexInsert (x : Nat × (Candidate × Int)) :
    List (Nat × (Candidate × Int)) → List (Nat × (Candidate × Int))
  | [] => [x]
  | h :: t => if lexBefore x h then x :: h :: t else h :: lexInsert x t

/-- Sort indexed count rows by descending count, breaking ties by ascending
input index. -/
def specSortIdx (l : List (Nat × (Candidate × Int))) : List (Nat × (Candidate × Int)) :=
  l.foldr lexInsert []

/-- Spec-side reading of the NTV winner rule: attach to each row of the
counts table (which lists candidates in input order) its index, order by
descending count with ties broken by input position, and take the first
`seats` candidates. -/
def specTopSeats (counts : List (Candidate × Int)) (seats : Nat) : List Candidate :=
  ((specSortIdx counts.enum).map (fun p => p.2.1)).take seats

/-- Deterministic oracle used to instantiate theorems at concrete inputs:
`shuffle` is the identity, `choice` picks the first element, `triangular`
returns its lower bound. -/
def noRnd : RndO :=
  { shuffle := id, pick := fun _ => 0, triangular := fun lo _ _ => lo }

/-- Concrete fixture: party A. -/
def pA : Party := { id := "A", name := "Party A" }

/-- Concrete fixture: party B. -/
def pB : Party := { id := "B", name := "Party B" }

/-- Concrete fixture: first candidate of party A. -/
def cA0 : Candidate := { party := pA, id := 0 }

/-- Concrete fixture: second candidate of party A. -/
def cA1 : Candidate := { party := pA, id := 1 }

/-- Concrete fixture: first candidate of party B. -/
def cB0 : Candidate := { party := pB, id := 0 }

/-- Concrete fixture: second candidate of party B. -/
def cB1 : Candidate := { party := pB, id := 1 }

/-- Concrete fixture: a voter group preferring party A over party B. -/
def gAB : VoterGroup := { preferences := [pA, pB], name := "AB voters" }

/-! Theorems. -/

/-- C9: for every non-negative total and every `seats ≥ 1`, the Droop quota
`floor(total/(seats+1)) + 1` computed by `simulate_stv` satisfies
`quota × (seats+1) > total`, and consequently at most `seats` candidates can
hold a full quota of the votes. -/
theorem C9_droop_quota (total seats : Nat) (h : 1 ≤ seats) :
    (total : ℤ) < stvQuota (total : ℤ) seats * ((seats : ℤ) + 1) ∧
    (∀ k : ℕ, (k : ℤ) * stvQuota (total : ℤ) seats ≤ (total : ℤ) → k ≤ seats) := by
  have hq : stvQuota (total : ℤ) seats = ((total / (seats + 1) : ℕ) : ℤ) + 1 := by
    unfold stvQuota
    rw [Int.fdiv_eq_ediv _ (by positivity), Int.natCast_div]
    push_cast
    ring
  have hmain : (total : ℤ) < stvQuota (total : ℤ) seats * ((seats : ℤ) + 1) := by
    rw [hq]
    have hmod := Nat.div_add_mod total (seats + 1)
    have hlt : total % (seats + 1) < seats + 1 := Nat.mod_lt _ (by omega)
    have hn : total < (total / (seats + 1) + 1) * (seats + 1) := by nlinarith
    push_cast
    exact_mod_cast hn
  refine ⟨hmain, fun k hk => ?_⟩
  have hqpos : 0 < stvQuota (total : ℤ) seats := by rw [hq]; positivity
  have h2 : (k : ℤ) * stvQuota (total : ℤ) seats <
      ((seats : ℤ) + 1) * stvQuota (total : ℤ) seats := by
    calc (k : ℤ) * stvQuota (total : ℤ) seats ≤ (total : ℤ) := hk
    _ < stvQuota (total : ℤ) seats * ((seats : ℤ) + 1) := hmain
    _ = ((seats : ℤ) + 1) * stvQuota (total : ℤ) seats := mul_comm _ _
  have h3 : (k : ℤ) < (seats : ℤ) + 1 := lt_of_mul_lt_mul_right h2 (le_of_lt hqpos)
  exact_mod_cast Int.lt_add_one_iff.mp h3

/-- Witness for C9 at `total = 10`, `seats = 2` (quota is 4 and 4·3 > 10). -/
theorem C9_droop_quota_witness :
    (10 : ℤ) < stvQuota (10 : ℤ) 2 * ((2 : ℤ) + 1) ∧
    (∀ k : ℕ, (k : ℤ) * stvQuota (10 : ℤ) 2 ≤ (10 : ℤ) → k ≤ 2) :=
  C9_droop_quota 10 2 (by decide)

/-- C10: on a ballot of `n` ranks, the standard Borda per-rank points `n - i`
are a strictly decreasing linear function of the rank index, and the Dowdall
per-rank points `1/(i+1)` are strictly decreasing and lie in `(0, 1]` for
every rank on the ballot. -/
theorem C10_borda_rank_points (n i j : ℕ) (hij : i < j) (_hjn : j < n) :
    bordaRankScore "standard" n j < bordaRankScore "standard" n i ∧
    (∀ k : ℕ, bordaRankScore "standard" n (k + 1) = bordaRankScore "standard" n k - 1) ∧
    bordaRankScore "dowdall" n j < bordaRankScore "dowdall" n i ∧
    (0 < bordaRankScore "dowdall" n i ∧ bordaRankScore "dowdall" n i ≤ 1) ∧
    (0 < bordaRankScore "dowdall" n j ∧ bordaRankScore "dowdall" n j ≤ 1) := by
  have hstd : ∀ m : ℕ, bordaRankScore "standard" n m = (n : ℚ) - m := by
    intro m; unfold bordaRankScore
    rw [if_neg (by decide), if_neg (by decide)]
  have hdow : ∀ m : ℕ, bordaRankScore "dowdall" n m = 1 / ((m : ℚ) + 1) := by
    intro m; unfold bordaRankScore
    rw [if_pos (by decide)]
  have hcast : (i : ℚ) < (j : ℚ) := by exact_mod_cast hij
  refine ⟨?_, ?_, ?_, ?_, ?_⟩
  · rw [hstd i, hstd j]; linarith
  · intro k; rw [hstd k, hstd (k + 1)]; push_cast; ring
  · rw [hdow i, hdow j]
    exact one_div_lt_one_div_of_lt (by positivity) (by linarith)
  · rw [hdow i]
    constructor
    · positivity
    · rw [div_le_one (by positivity)]
      have : (0 : ℚ) ≤ i := by positivity
      linarith
  · rw [hdow j]
    constructor
    · positivity
    · rw [div_le_one (by positivity)]
      have : (0 : ℚ) ≤ j := by positivity
      linarith

/-- Witness for C10 at `n = 3`, `i = 0`, `j = 1`. -/
theorem C10_borda_rank_points_witness :
    bordaRankScore "standard" 3 1 < bordaRankScore "standard" 3 0 ∧
    (∀ k : ℕ, bordaRankScore "standard" 3 (k + 1) = bordaRankScore "standard" 3 k - 1) ∧
    bordaRankScore "dowdall" 3 1 < bordaRankScore "dowdall" 3 0 ∧
    (0 < bordaRankScore "dowdall" 3 0 ∧ bordaRankScore "dowdall" 3 0 ≤ 1) ∧
    (0 < bordaRankScore "dowdall" 3 1 ∧ bordaRankScore "dowdall" 3 1 ≤ 1) :=
  C10_borda_rank_points 3 0 1 (by decide) (by decide)

/-- C2: a district built by `District.__init__` has an empty `voter_map`
(`generate_voter_map` builds and returns a fresh map but line 30 discards
it), and since no method ever assigns the attribute — in this embedding no
operation even produces a `District` — the three ballot generators, which
iterate `self.voter_map`, all return the empty ballot list on such a
district. -/
theorem C2_voter_map_stays_empty (name : String) (total : Nat)
    (vgs : List VoterGroup) (rnd : Nat → Nat) (n : Nat)
    (candidates : List Candidate) (randomize : Bool) (O : RndO) (mn mx : ℚ) :
    (District.init name total vgs rnd).voter_map = [] ∧
    generate_block_ballots (District.init name total vgs rnd).voter_map
      n candidates randomize O = [] ∧
    generate_ranked_ballots (District.init name total vgs rnd).voter_map
      n candidates randomize O = .ok [] ∧
    generate_score_ballots (District.init name total vgs rnd).voter_map
      n candidates mn mx randomize O = .ok [] :=
  ⟨rfl, rfl, rfl, rfl⟩

/-- C1 (refuting evaluation): on an actual district — whose `voter_map` is
empty, so every first-round count is 0 — `simulate_stv` with 2 candidates
and `seats = 1` raises `IndexError` (`remaining[-1]` on an empty list in the
elimination branch) instead of returning one winner, for all four
combinations of the `droop_quota` and `surplus_transfers` flags. -/
theorem C1_stv_raises_on_real_district :
    (simulate_stv (District.init "D" 100 [] (fun _ => 0)).voter_map 1 [cA0, cB0]
        true true false noRnd 10 = .error .indexError) ∧
    (simulate_stv (District.init "D" 100 [] (fun _ => 0)).voter_map 1 [cA0, cB0]
        true false false noRnd 10 = .error .indexError) ∧
    (simulate_stv (District.init "D" 100 [] (fun _ => 0)).voter_map 1 [cA0, cB0]
        false true false noRnd 10 = .error .indexError) ∧
    (simulate_stv (District.init "D" 100 [] (fun _ => 0)).voter_map 1 [cA0, cB0]
        false false false noRnd 10 = .error .indexError) :=
  ⟨rfl, rfl, rfl, rfl⟩

/-- C3 (refuting evaluation): `simulate_trs` on a district with one voter
group of weight 100 and candidates `[A0, B0]` raises `TypeError`: the
majority check `for candidate, votes in counts:` iterates the dict's
`Candidate` keys and the tuple unpacking fails (moreover `total_votes` is
never accumulated, so the 50% threshold would compare against 0). -/
theorem C3_trs_raises_type_error :
    simulate_trs [(gAB, 100)] [cA0, cB0] false noRnd = .error .typeError :=
  rfl

/-- C5 (refuting evaluation): with `n = 2` votes per ballot, candidates
`[A0, B0, B1]` and one group preferring A over B, `generate_block_ballots`
produces the ballot `[A0, B0, B1]` with 3 > 2 candidates: line 110 extends
the ballot by `choices[0:n]` — up to `n` candidates per party — instead of
up to the remaining capacity `n - len(ballot)`. -/
theorem C5_block_ballot_overfull :
    generate_block_ballots [(gAB, 10)] 2 [cA0, cB0, cB1] false noRnd
      = [([cA0, cB0, cB1], 10)] ∧
    ¬ ([cA0, cB0, cB1].length ≤ 2) :=
  ⟨rfl, by decide⟩

/-- C7 (refuting evaluation): `simulate_bucklin_voting` on an actual
district (empty `voter_map`) with 2 candidates and ballot-size draw 5 raises
`TypeError` during its very first pass: the majority check
`for candidate, votes in counts:` iterates the nonempty counts dict's
`Candidate` keys and the tuple unpacking fails, so the round loop never
completes even one pass normally. -/
theorem C7_bucklin_raises_type_error :
    simulate_bucklin_voting (District.init "D" 100 [] (fun _ => 0)).voter_map
      [cA0, cB0] false noRnd 5 3 = .error .typeError :=
  rfl

/-- C8 (refuting evaluation): with `randomize=False`, `n = 2`, score range
`[0, 5]`, candidates `[A0, B0]` and one group preferring A over B,
`generate_score_ballots` returns the single-entry ballot `{A0: 0}`: line 208
picks `mpp[0]` — the most-preferred party's first candidate, the very
candidate that had just received `max_score` — instead of a least-preferred
party candidate, so the minimum score overwrites the maximum and no
candidate holds `max_score`. -/
theorem C8_score_ballot_min_overwrites_max :
    generate_score_ballots [(gAB, 10)] 2 [cA0, cB0] 0 5 false noRnd
      = .ok [([(cA0, 0)], 10)] ∧
    (∀ p ∈ [(cA0, (0 : ℚ))], p.1.party = pA ∧ p.2 ≠ 5) :=
  ⟨rfl, by decide⟩

/-- C4: every seat-based method (`simulate_ntv`, `simulate_stv`,
`simulate_star_bloc_voting`) called with `seats ≥ 1` and
`seats > len(candidates)` returns `NotEnoughCandidatesError`; in each
embedded definition the validation precedes the ballot-generation step, as
at the top of each source method, so no partial work is performed. -/
theorem C4_seats_validation (vm : List (VoterGroup × Int)) (n seats : Nat)
    (candidates : List Candidate) (randomize dq stf : Bool) (O : RndO)
    (nDraw fuel : Nat) (h1 : 1 ≤ seats) (h2 : candidates.length < seats) :
    simulate_ntv vm n seats candidates randomize O = .error .notEnoughCandidates ∧
    simulate_stv vm seats candidates dq stf randomize O fuel
      = .error .notEnoughCandidates ∧
    simulate_star_bloc_voting vm seats candidates randomize O nDraw fuel
      = .error .notEnoughCandidates := by
  refine ⟨?_, ?_, ?_⟩
  · unfold simulate_ntv
    rw [if_neg (by omega), if_pos (Or.inr h2)]
  · unfold simulate_stv
    rw [if_neg (by omega), if_pos (Or.inr h2)]
  · unfold simulate_star_bloc_voting
    rw [if_neg (by omega), if_pos (Or.inr h2)]

/-- Witness for C4 at `seats = 3` and two candidates. -/
theorem C4_seats_validation_witness :
    simulate_ntv [] 1 3 [cA0, cB0] false noRnd = .error .notEnoughCandidates ∧
    simulate_stv [] 3 [cA0, cB0] true true false noRnd 5
      = .error .notEnoughCandidates ∧
    simulate_star_bloc_voting [] 3 [cA0, cB0] false noRnd 5 5
      = .error .notEnoughCandidates :=
  C4_seats_validation [] 1 3 [cA0, cB0] false true true noRnd 5 5
    (by decide) (by decide)

/-! Helper lemmas for the NTV winner-selection claim: the stable descending
sort used by the code agrees with the spec's lexicographic description
(count descending, input position ascending). -/

/-- Python candidate equality is reflexive. -/
theorem pyCandEq_refl (c : Candidate) : pyCandEq c c = true := by
  simp [pyCandEq, pyPartyEq]

/-- Inserting with `lexInsert` is a permutation-preserving cons. -/
theorem lexInsert_perm (x : Nat × (Candidate × Int)) (l : List (Nat × (Candidate × Int))) :
    (lexInsert x l).Perm (x :: l) := by
  induction l with
  | nil => simp [lexInsert]
  | cons h t ih =>
      unfold lexInsert
      by_cases hb : lexBefore x h = true
      · simp [hb]
      · rw [if_neg hb]
        exact (ih.cons h).trans (List.Perm.swap x h t)

/-- `specSortIdx` permutes its input. -/
theorem specSortIdx_perm (l : List (Nat × (Candidate × Int))) :
    (specSortIdx l).Perm l := by
  induction l with
  | nil => simp [specSortIdx]
  | cons x t ih =>
      show (lexInsert x (specSortIdx t)).Perm (x :: t)
      exact (lexInsert_perm x _).trans (ih.cons x)

/-- When the inserted row's index is below every index in the target list,
lexicographic insertion and stable descending insertion place it at the same
position. -/
theorem lexInsert_map_snd (x : Nat × (Candidate × Int)) :
    ∀ (l : List (Nat × (Candidate × Int))), (∀ y ∈ l, x.1 < y.1) →
      (lexInsert x l).map Prod.snd = sortInsertDesc x.2 (l.map Prod.snd)
  | [], _ => rfl
  | h :: t, hidx => by
      have hx : x.1 < h.1 := hidx h (by simp)
      have hcond : lexBefore x h = true ↔ h.2.2 ≤ x.2.2 := by
        unfold lexBefore
        simp only [Bool.or_eq_true, Bool.and_eq_true, decide_eq_true_eq]
        constructor
        · rintro (hlt | ⟨heq, _⟩)
          · exact le_of_lt hlt
          · exact le_of_eq heq
        · intro hle
          rcases lt_or_eq_of_le hle with hlt | heq
          · exact Or.inl hlt
          · exact Or.inr ⟨heq, hx⟩
      show (if lexBefore x h then x :: h :: t else h :: lexInsert x t).map Prod.snd
        = sortInsertDesc x.2 (h.2 :: t.map Prod.snd)
      unfold sortInsertDesc
      by_cases hb : h.2.2 ≤ x.2.2
      · rw [if_pos (hcond.mpr hb), if_pos hb]
        rfl
      · rw [if_neg (fun hh => hb (hcond.mp hh)), if_neg hb]
        simp only [List.map_cons]
        rw [lexInsert_map_snd x t (fun y hy => hidx y (by simp [hy]))]

/-- `enumFrom` produces rows with strictly increasing indices. -/
theorem enumFrom_pairwise {α : Type} : ∀ (l : List α) (m : Nat),
    (List.enumFrom m l).Pairwise (fun a b => a.1 < b.1)
  | [], _ => by simp
  | x :: t, m => by
      refine List.Pairwise.cons ?_ (enumFrom_pairwise t (m + 1))
      intro y hy
      obtain ⟨i, a⟩ := y
      have := (List.mem_enumFrom hy).1
      simpa using by omega

/-- `enum` produces rows with strictly increasing indices. -/
theorem enum_pairwise {α : Type} (l : List α) :
    l.enum.Pairwise (fun a b => a.1 < b.1) :=
  enumFrom_pairwise l 0

/-- On a row list with strictly increasing indices, the lexicographic sort
projects onto the code's stable descending sort. -/
theorem specSortIdx_map_snd : ∀ (l : List (Nat × (Candidate × Int))),
    l.Pairwise (fun a b => a.1 < b.1) →
    (specSortIdx l).map Prod.snd = sort_dict_desc (l.map Prod.snd)
  | [], _ => rfl
  | x :: t, hl => by
      rw [List.pairwise_cons] at hl
      have h1 : ∀ y ∈ specSortIdx t, x.1 < y.1 :=
        fun y hy => hl.1 y ((specSortIdx_perm t).mem_iff.mp hy)
      show (lexInsert x (specSortIdx t)).map Prod.snd
        = sortInsertDesc x.2 (sort_dict_desc (t.map Prod.snd))
      rw [lexInsert_map_snd x _ h1, specSortIdx_map_snd t hl.2]

/-- The spec's top-`seats` selection (count descending, ties by input
position) coincides with taking the first `seats` keys of the code's
`sort_dict_desc` output. -/
theorem specTopSeats_eq (counts : List (Candidate × Int)) (seats : Nat) :
    specTopSeats counts seats = ((sort_dict_desc counts).take seats).map Prod.fst := by
  unfold specTopSeats
  have h1 : (specSortIdx counts.enum).map (fun p => p.2.1)
      = ((specSortIdx counts.enum).map Prod.snd).map Prod.fst := by
    rw [List.map_map]; rfl
  rw [h1, specSortIdx_map_snd _ (enum_pairwise counts), List.enum_map_snd,
    List.map_take]

/-- Setting a key absent from a dict appends the new entry. -/
theorem dictSet_append {κ υ : Type} (eq : κ → κ → Bool) :
    ∀ (m : List (κ × υ)) (k : κ) (v : υ), (∀ p ∈ m, eq p.1 k = false) →
      dictSet eq m k v = m ++ [(k, v)]
  | [], _, _, _ => rfl
  | p :: t, k, v, h => by
      unfold dictSet
      rw [if_neg (by simp [h p (by simp)]),
        dictSet_append eq t k v (fun q hq => h q (by simp [hq]))]
      rfl

/-- Folding `dictSet` over pairwise-distinct keys starting from a dict
disjoint from them appends one entry per key. -/
theorem dictInit_fold {κ υ : Type} (eq : κ → κ → Bool) (v0 : υ) :
    ∀ (ks : List κ) (m : List (κ × υ)),
      (∀ k ∈ ks, ∀ p ∈ m, eq p.1 k = false) →
      ks.Pairwise (fun a b => eq a b = false) →
      ks.foldl (fun m k => dictSet eq m k v0) m = m ++ ks.map (fun k => (k, v0))
  | [], m, _, _ => by simp
  | k :: t, m, hdisj, hnd => by
      rw [List.pairwise_cons] at hnd
      simp only [List.foldl_cons]
      rw [dictSet_append eq m k v0 (hdisj k (by simp))]
      rw [dictInit_fold eq v0 t (m ++ [(k, v0)]) ?_ hnd.2]
      · simp
      · intro k2 hk2 p hp
        rcases List.mem_append.mp hp with hp | hp
        · exact hdisj k2 (by simp [hk2]) p hp
        · have hpk : p = (k, v0) := by simpa using hp
          rw [hpk]
          exact hnd.1 k2 hk2

/-- A dict comprehension over pairwise-distinct keys lists them in order. -/
theorem dictInit_eq_map {κ υ : Type} (eq : κ → κ → Bool) (v0 : υ) (ks : List κ)
    (hnd : ks.Pairwise (fun a b => eq a b = false)) :
    dictInit eq v0 ks = ks.map (fun k => (k, v0)) := by
  unfold dictInit
  rw [dictInit_fold eq v0 ks [] (by simp) hnd]
  simp

/-- A successful `dictAdd` preserves the dict's key sequence. -/
theorem dictAdd_keys {κ υ : Type} [Add υ] (eq : κ → κ → Bool) :
    ∀ (d : List (κ × υ)) (k : κ) (v : υ) (d2 : List (κ × υ)),
      dictAdd eq d k v = .ok d2 → d2.map Prod.fst = d.map Prod.fst
  | [], _, _, _, h => by simp [dictAdd] at h
  | p :: t, k, v, d2, h => by
      unfold dictAdd at h
      by_cases hpk : eq p.1 k = true
      · rw [if_pos hpk] at h
        simp only [Except.ok.injEq] at h
        rw [← h]
        simp
      · rw [if_neg hpk] at h
        cases hrec : dictAdd eq t k v with
        | error e => rw [hrec] at h; simp [Except.map] at h
        | ok t2 =>
            rw [hrec] at h
            simp only [Except.map, Except.ok.injEq] at h
            rw [← h]
            simp [dictAdd_keys eq t k v t2 hrec]

/-- `dictAdd` succeeds whenever some entry's key matches. -/
theorem dictAdd_ok {κ υ : Type} [Add υ] (eq : κ → κ → Bool) :
    ∀ (d : List (κ × υ)) (k : κ) (v : υ), (∃ p ∈ d, eq p.1 k = true) →
      ∃ d2, dictAdd eq d k v = .ok d2
  | [], _, _, h => by simp at h
  | p :: t, k, v, h => by
      unfold dictAdd
      by_cases hpk : eq p.1 k = true
      · exact ⟨_, by rw [if_pos hpk]⟩
      · rw [if_neg hpk]
        obtain ⟨q, hq, hqk⟩ := h
        rcases List.mem_cons.mp hq with hq1 | hq2
        · exact absurd (hq1 ▸ hqk) hpk
        · obtain ⟨t2, ht2⟩ := dictAdd_ok eq t k v ⟨q, hq2, hqk⟩
          exact ⟨p :: t2, by rw [ht2]; rfl⟩

/-- The inner loop of `ntvTally` (adding one ballot's weight to each listed
candidate) succeeds and preserves the counts dict's key sequence, provided
each ballot candidate matches some key. -/
theorem ballotFold_ok (w : Int) : ∀ (ballot : List Candidate) (counts : List (Candidate × Int)),
    (∀ c ∈ ballot, ∃ p ∈ counts, pyCandEq p.1 c = true) →
    ∃ counts2,
      ballot.foldlM (fun cs c => dictAdd pyCandEq cs c w) counts = .ok counts2 ∧
      counts2.map Prod.fst = counts.map Prod.fst
  | [], counts, _ => ⟨counts, rfl, rfl⟩
  | c :: t, counts, h => by
      obtain ⟨d2, hd2⟩ := dictAdd_ok pyCandEq counts c w (h c (by simp))
      have hkeys := dictAdd_keys pyCandEq counts c w d2 hd2
      obtain ⟨counts3, h3, hk3⟩ := ballotFold_ok w t d2 (by
        intro c2 hc2
        obtain ⟨p, hp, hpc⟩ := h c2 (by simp [hc2])
        have : p.1 ∈ d2.map Prod.fst := by rw [hkeys]; exact List.mem_map_of_mem _ hp
        obtain ⟨q, hq, hqp⟩ := List.mem_map.mp this
        exact ⟨q, hq, by rw [hqp]; exact hpc⟩)
      refine ⟨counts3, ?_, by rw [hk3, hkeys]⟩
      rw [List.foldlM_cons, hd2]
      exact h3

/-- The outer loop of `ntvTally` succeeds and keeps the counts dict keyed by
the input candidates, in order. -/
theorem ntvFold_ok (candidates : List Candidate) :
    ∀ (bs : List (List Candidate × Int)) (acc : List (Candidate × Int)),
      acc.map Prod.fst = candidates →
      (∀ bw ∈ bs, ∀ c ∈ bw.1, c ∈ candidates) →
      ∃ counts,
        bs.foldlM (fun counts bw =>
          bw.1.foldlM (fun cs c => dictAdd pyCandEq cs c bw.2) counts) acc
          = .ok counts ∧
        counts.map Prod.fst = candidates
  | [], acc, hacc, _ => ⟨acc, rfl, hacc⟩
  | bw :: bs, acc, hacc, hb => by
      obtain ⟨acc2, h2, hk2⟩ := ballotFold_ok bw.2 bw.1 acc (by
        intro c hcmem
        have : c ∈ acc.map Prod.fst := by rw [hacc]; exact hb bw (by simp) c hcmem
        obtain ⟨q, hq, hqc⟩ := List.mem_map.mp this
        exact ⟨q, hq, by rw [hqc]; exact pyCandEq_refl c⟩)
      obtain ⟨counts, h3, hk3⟩ := ntvFold_ok candidates bs acc2 (by rw [hk2, hacc])
        (fun b hbmem => hb b (by simp [hbmem]))
      exact ⟨counts, by rw [List.foldlM_cons, h2]; exact h3, hk3⟩

/-- `ntvTally` succeeds and returns a counts dict keyed by the candidates in
input order, whenever every ballot candidate comes from the candidate list
and the candidates are pairwise distinct under Python equality. -/
theorem ntvTally_ok (candidates : List Candidate) (ballots : List (List Candidate × Int))
    (hc : candidates.Pairwise (fun a b => pyCandEq a b = false))
    (hb : ∀ bw ∈ ballots, ∀ c ∈ bw.1, c ∈ candidates) :
    ∃ counts, ntvTally candidates ballots = .ok counts ∧
      counts.map Prod.fst = candidates := by
  unfold ntvTally
  refine ntvFold_ok candidates ballots (dictInit pyCandEq (0 : Int) candidates) ?_ hb
  rw [dictInit_eq_map pyCandEq (0 : Int) candidates hc, List.map_map]
  exact List.map_id candidates

/-- Every candidate placed on a block ballot comes from the candidate list
(or was already on the partially built ballot), assuming the shuffle oracle
permutes its input as `random.shuffle` does. -/
theorem blockFill_mem (n : Nat) (candidates : List Candidate) (randomize : Bool)
    (O : RndO) (hsh : ∀ l, (O.shuffle l).Perm l) :
    ∀ (ps : List Party) (ballot : List Candidate) (c : Candidate),
      c ∈ blockFill n candidates randomize O ps ballot → c ∈ ballot ∨ c ∈ candidates
  | [], _, c, h => Or.inl h
  | p :: ps, ballot, c, h => by
      unfold blockFill at h
      by_cases hfull : n ≤ ballot.length
      · rw [if_pos hfull] at h; exact Or.inl h
      · rw [if_neg hfull] at h
        rcases blockFill_mem n candidates randomize O hsh ps _ c h with h2 | h2
        · rcases List.mem_append.mp h2 with h3 | h3
          · exact Or.inl h3
          · right
            have h4 := List.mem_of_mem_take h3
            by_cases hr : randomize
            · rw [if_pos hr] at h4
              exact (List.mem_filter.mp ((hsh _).mem_iff.mp h4)).1
            · rw [if_neg hr] at h4
              exact (List.mem_filter.mp h4).1
        · exact Or.inr h2

/-- Block ballots only list candidates from the candidate list. -/
theorem generate_block_ballots_mem (vm : List (VoterGroup × Int)) (n : Nat)
    (candidates : List Candidate) (randomize : Bool) (O : RndO)
    (hsh : ∀ l, (O.shuffle l).Perm l) :
    ∀ bw ∈ generate_block_ballots vm n candidates randomize O,
      ∀ c ∈ bw.1, c ∈ candidates := by
  intro bw hbw c hc
  unfold generate_block_ballots at hbw
  obtain ⟨gv, _, hgv⟩ := List.mem_map.mp hbw
  rw [← hgv] at hc
  rcases blockFill_mem n candidates randomize O hsh gv.1.preferences [] c hc with h | h
  · simp at h
  · exact h

/-- C6: under the validated preconditions, `simulate_ntv` returns a result
whose counts dict lists exactly the input candidates in input order and
whose winners are precisely the top `seats` candidates by descending
weighted count, with equal counts ordered by input-list position (the
spec-side selection `specTopSeats`).  The shuffle oracle is assumed to
permute its input, as `random.shuffle` does. -/
theorem C6_ntv_winners (vm : List (VoterGroup × Int)) (n seats : Nat)
    (candidates : List Candidate) (randomize : Bool) (O : RndO)
    (hc : candidates.Pairwise (fun a b => pyCandEq a b = false))
    (hsh : ∀ l, (O.shuffle l).Perm l)
    (h1 : 1 ≤ seats) (h2 : seats ≤ candidates.length) (h3 : 2 ≤ candidates.length) :
    ∃ res, simulate_ntv vm n seats candidates randomize O = .ok res ∧
      res.counts.map Prod.fst = candidates ∧
      res.winners = specTopSeats res.counts seats := by
  obtain ⟨counts, hok, hkeys⟩ := ntvTally_ok candidates
    (generate_block_ballots vm n candidates randomize O) hc
    (generate_block_ballots_mem vm n candidates randomize O hsh)
  refine ⟨{ voting_system := "Non-transferable vote (NTV)", counts := counts,
            winners := ((sort_dict_desc counts).take seats).map Prod.fst,
            details := [toString n ++ " votes per ballot", toString seats ++ " seats",
                        toString candidates.length ++ " candidates"] ++
                       (if randomize then ["Randomized ballot generation"] else []) },
          ?_, hkeys, (specTopSeats_eq counts seats).symm⟩
  unfold simulate_ntv
  rw [if_neg (by omega), if_neg (by omega)]
  simp only [hok]
  rfl

/-- Witness for C6 at one weighted group, one vote per ballot, one seat and
two candidates. -/
theorem C6_ntv_winners_witness :
    ∃ res, simulate_ntv [(gAB, 10)] 1 1 [cA0, cB0] false noRnd = .ok res ∧
      res.counts.map Prod.fst = [cA0, cB0] ∧
      res.winners = specTopSeats res.counts 1 :=
  C6_ntv_winners [(gAB, 10)] 1 1 [cA0, cB0] false noRnd (by decide)
    (fun l => List.Perm.refl l) (by decide) (by decide) (by decide)

end VotingSim
